import Mathlib

/-!
# Verification of the workout-creator trainer core

Shallow embedding of the trainer control adapter (`use-trainer.ts`), the
workout playback state machine (`use-workout-player.ts`) and the session
analytics (`workout-utils.ts`) of the workoutcreator repository, together
with theorems settling the specification claims about them.

Conventions of the embedding:
* JavaScript `number` values are modelled as exact rationals (`ℚ`) where
  fractional values can occur, and as `ℤ`/`ℕ` where the source only ever
  produces integers.  `Math.round` is modelled by `jsRound` below
  (round half toward positive infinity, exactly JS semantics).
* `x | null` fields are modelled as `Option`.
* A JavaScript expression that can throw (out-of-range `DataView` reads)
  is modelled as an `Option`-returning function, `none` meaning the
  original code would have thrown.
-/

namespace Workoutcreator

/-- JavaScript `Math.round`: round half toward +∞, i.e. `⌊q + 1/2⌋`. -/
def jsRound (q : ℚ) : ℤ := ⌊q + 1/2⌋

/-- JavaScript `Math.max(0, ·)` on integers. -/
def clamp0 (z : ℤ) : ℤ := max 0 z

/-! ## Data model (`types/workout.ts`, `types/trainer.ts`) -/

/-- Model of `PowerTarget` from `types/workout.ts`: target power of a segment.
The playback scheduler (`calculateTargetPower`) reads `value` and
`valueHigh` directly as percent-of-FTP; the `type` discriminator and
presentation fields are not consulted by any function verified here and
are omitted. -/
structure PowerTarget where
  value : ℚ
  valueHigh : Option ℚ
  deriving Repr, DecidableEq

/-- Model of `Segment` from `types/workout.ts`, restricted to the fields consumed
by the scheduler and the analytics (`type`, `cadenceTarget` and
`instructions` are presentational and unused by the verified functions). -/
structure Segment where
  id : String
  duration : ℚ
  targetPower : PowerTarget
  «repeat» : Option ℕ
  deriving Repr, DecidableEq

/-- JavaScript `segment.«repeat» || 1`: `1` when the field is unset *or 0*
(0 is falsy in JavaScript). -/
def jsRepeat : Option ℕ → ℕ
  | none => 1
  | some 0 => 1
  | some (n+1) => n+1

/-! ## `workout-utils.ts`: duration and repeat expansion -/

/-- Source `calculateTotalDuration(segments)`: sum over segments of
`duration * (repeat || 1)`. -/
def calculateTotalDuration (segments : List Segment) : ℚ :=
  segments.foldl (fun total segment => total + segment.duration * (jsRepeat segment.«repeat» : ℚ)) 0

/-- The single expanded copy number `i` of a segment produced inside
`expandRepeatedSegments`: `{...segment, id: `${segment.id}-${i}`, repeat: 1}`. -/
def expandCopy (segment : Segment) (i : ℕ) : Segment :=
  { segment with id := segment.id ++ "-" ++ Nat.repr i, «repeat» := some 1 }

/-- Source `expandRepeatedSegments(segments)`: each segment is pushed
`repeat || 1` times, the `i`-th copy getting id `` `${segment.id}-${i}` ``
and `repeat: 1`. -/
def expandRepeatedSegments (segments : List Segment) : List Segment :=
  segments.flatMap (fun segment => (List.range (jsRepeat segment.«repeat»)).map (expandCopy segment))

/-! ## Playback scheduler state (`use-workout-player.ts`) -/

/-- Source `PlayerStatus` from `types/trainer.ts`. -/
inductive PlayerStatus where
  | stopped | playing | paused | completed
  deriving Repr, DecidableEq

/-- Source `ControlMode` from `types/trainer.ts`. -/
inductive ControlMode where
  | erg | manual
  deriving Repr, DecidableEq

/-- Source `PlayerState` from `types/trainer.ts`.  `currentSegmentIndex`
is an integer because `findSegmentAtTime` can produce `length - 1 = -1`
on an empty segment list. -/
structure PlayerState where
  status : PlayerStatus
  elapsedTime : ℚ
  currentSegmentIndex : ℤ
  segmentElapsedTime : ℚ
  controlMode : ControlMode
  targetPower : ℤ
  deriving Repr, DecidableEq

/-- Total duration of the expanded segment list,
`expandedSegments.reduce((sum, seg) => sum + seg.duration, 0)`
(line 51 of `use-workout-player.ts`). -/
def totalDurationOf (expandedSegments : List Segment) : ℚ :=
  expandedSegments.foldl (fun sum seg => sum + seg.duration) 0

/-- Source `calculateTargetPower(segment, progress)`: linear ramp
interpolation of percent-of-FTP, shifted by the live intensity offset,
converted to watts, rounded, and clamped to `≥ 0` — in that order, with
no upper clamp. -/
def calculateTargetPower (ftp : ℚ) (intensityOffset : ℚ) (segment : Segment)
    (progress : ℚ) : ℤ :=
  let startPower := segment.targetPower.value
  let endPower := segment.targetPower.valueHigh.getD startPower
  let percentFTP := startPower + (endPower - startPower) * progress
  let adjustedPercent := percentFTP + intensityOffset
  clamp0 (jsRound (adjustedPercent / 100 * ftp))

/-- Source `adjustIntensity(delta)` state update:
`Math.max(-50, Math.min(50, prev + delta))`. -/
def adjustIntensity (prev delta : ℚ) : ℚ :=
  max (-50) (min 50 (prev + delta))

/-- JavaScript `xs.slice(0, n)` (a negative `n` counts from the end). -/
def jsSlice0 {α : Type} (xs : List α) (n : ℤ) : List α :=
  if 0 ≤ n then xs.take n.toNat else xs.take ((xs.length : ℤ) + n).toNat

/-- Source `getCumulativeDuration(upToIndex)`:
`expandedSegments.slice(0, upToIndex).reduce((sum, seg) => sum + seg.duration, 0)`. -/
def getCumulativeDuration (expandedSegments : List Segment) (upToIndex : ℤ) : ℚ :=
  (jsSlice0 expandedSegments upToIndex).foldl (fun sum seg => sum + seg.duration) 0

/-- Loop body of `findSegmentAtTime`: scan the segments accumulating
cumulative duration, returning the first index whose cumulative end is
strictly greater than `totalElapsed`. -/
def findSegAux : List Segment → ℚ → ℚ → ℕ → Option (ℕ × ℚ)
  | [], _, _, _ => none
  | seg :: rest, totalElapsed, accumulated, i =>
    if totalElapsed < accumulated + seg.duration then
      some (i, totalElapsed - accumulated)
    else
      findSegAux rest totalElapsed (accumulated + seg.duration) (i + 1)

/-- Source `findSegmentAtTime(totalElapsed)`: the linear scan; when the
scan falls off the end (workout complete) it returns the last index and
`expandedSegments[expandedSegments.length - 1]?.duration || 0`. -/
def findSegmentAtTime (expandedSegments : List Segment) (totalElapsed : ℚ) : ℤ × ℚ :=
  match findSegAux expandedSegments totalElapsed 0 0 with
  | some (i, segmentElapsed) => ((i : ℤ), segmentElapsed)
  | none =>
    ((expandedSegments.length : ℤ) - 1,
      ((expandedSegments.getLast?).map Segment.duration).getD 0)

/-- Source `tick()` state update: advance `elapsedTime` by the measured
wall-clock delta (passed here as `deltaSeconds`), re-resolve the current
segment, and complete the workout when the new elapsed time reaches the
total duration.  The `onSegmentChange` callback performed on a segment
change mutates no `PlayerState` field and is omitted. -/
def tick (expandedSegments : List Segment) (st : PlayerState)
    (deltaSeconds : ℚ) : PlayerState :=
  if st.status ≠ .playing then st
  else
    let newElapsedTime := st.elapsedTime + deltaSeconds
    let r := findSegmentAtTime expandedSegments newElapsedTime
    if totalDurationOf expandedSegments ≤ newElapsedTime then
      { st with
        status := .completed
        elapsedTime := totalDurationOf expandedSegments
        currentSegmentIndex := (expandedSegments.length : ℤ) - 1
        segmentElapsedTime := ((expandedSegments.getLast?).map Segment.duration).getD 0 }
    else
      { st with
        elapsedTime := newElapsedTime
        currentSegmentIndex := r.1
        segmentElapsedTime := r.2 }

/-- Source `skipBackward()` state update: more than 3 seconds into the
current segment restarts it; otherwise jump to the previous segment's
start (clamped at segment 0).  The trailing `onSegmentChange` /
`setTargetPower` calls mutate no `PlayerState` field and are omitted. -/
def skipBackward (expandedSegments : List Segment) (st : PlayerState) : PlayerState :=
  if 3 < st.segmentElapsedTime then
    { st with
      elapsedTime := getCumulativeDuration expandedSegments st.currentSegmentIndex
      segmentElapsedTime := 0 }
  else
    let prevIndex := max 0 (st.currentSegmentIndex - 1)
    { st with
      elapsedTime := getCumulativeDuration expandedSegments prevIndex
      currentSegmentIndex := prevIndex
      segmentElapsedTime := 0 }

/-! ## Autopause effect (`use-workout-player.ts`, lines 90–130) -/

/-- The two live-metric fields the autopause effect reads
(`metrics?.power`, `metrics?.cadence`); `none` models `null`. -/
structure MetricsSnap where
  power : Option ℤ
  cadence : Option ℤ
  deriving Repr, DecidableEq

/-- Source constant `AUTOPAUSE_DELAY_MS = 5000`. -/
def AUTOPAUSE_DELAY_MS : ℚ := 5000

/-- The scheduler state touched by the autopause effect:
`playerState.status`, the `zeroPowerStartRef` idle timestamp (ms), the
`isAutoPaused` flag, the two 1 Hz interval handles (`timerRef`,
`recordIntervalRef`, modelled as "active" booleans) and a counter of
`onAutoPause` invocations. -/
structure AutopauseState where
  status : PlayerStatus
  zeroPowerStart : Option ℚ
  isAutoPaused : Bool
  timerActive : Bool
  recordTimerActive : Bool
  autoPauseSignals : ℕ
  deriving Repr, DecidableEq

/-- One run of the autopause effect body, at wall-clock time `now` (ms)
with the current metrics snapshot (`none` models an `undefined` metrics
prop, i.e. no trainer hook wired at all). -/
def autopauseEffect (s : AutopauseState) (metrics : Option MetricsSnap)
    (now : ℚ) : AutopauseState :=
  if s.status ≠ .playing then { s with zeroPowerStart := none }
  else
    match metrics with
    | none => { s with zeroPowerStart := none }
    | some m =>
      if m.power = none ∧ m.cadence = none then
        { s with zeroPowerStart := none }
      else
        let isIdle := (m.power = some 0 ∨ m.power = none) ∧
                      (m.cadence = some 0 ∨ m.cadence = none)
        if isIdle then
          match s.zeroPowerStart with
          | none => { s with zeroPowerStart := some now }
          | some t0 =>
            if AUTOPAUSE_DELAY_MS ≤ now - t0 then
              { s with
                isAutoPaused := true
                timerActive := false
                recordTimerActive := false
                status := .paused
                autoPauseSignals := s.autoPauseSignals + 1
                zeroPowerStart := none }
            else s
        else { s with zeroPowerStart := none }

/-- Fold the autopause effect over a timestamped sequence of metrics
snapshots (each element is `(now, metrics)`). -/
def runAutopause (s : AutopauseState) (events : List (ℚ × Option MetricsSnap)) :
    AutopauseState :=
  events.foldl (fun acc e => autopauseEffect acc e.2 e.1) s

/-! ## Transport adapter (`use-trainer.ts`) -/

/-- Source `TrainerConnectionState` from `types/trainer.ts`. -/
inductive TrainerConnectionState where
  | disconnected | connecting | connected | error
  deriving Repr, DecidableEq

/-- Source `controlProtocol` variants from `types/trainer.ts`. -/
inductive ControlProtocol where
  | ftms | wahoo | noProtocol
  deriving Repr, DecidableEq

/-- Source `TrainerCapabilities` from `types/trainer.ts`. -/
structure TrainerCapabilities where
  hasFTMS : Bool
  hasWahooExtension : Bool
  hasCyclingPower : Bool
  controlProtocol : ControlProtocol
  deriving Repr, DecidableEq

/-- Whether the two characteristic refs of `useTrainer` hold a value
(`ftmsControlPointRef.current !== null`, `wahooTrainerRef.current !== null`). -/
structure TrainerRefs where
  ftmsControlPoint : Bool
  wahooTrainer : Bool
  deriving Repr, DecidableEq

/-- Outcome of each possible GATT write in one `setTargetPower` call:
`true` means `writeValueWithResponse` resolves, `false` means it
rejects (the catch branch runs). -/
structure WriteOutcomes where
  ftmsOk : Bool
  wahooOk : Bool
  deriving Repr, DecidableEq

/-- A wire write attempted by the adapter, with the exact command bytes. -/
inductive WireWrite where
  | ftmsWrite (bytes : List ℕ)
  | wahooWrite (bytes : List ℕ)
  deriving Repr, DecidableEq

/-- Opcode `FTMS_OPCODES.SET_TARGET_POWER = 0x05`. -/
def FTMS_SET_TARGET_POWER : ℕ := 0x05

/-- Opcode `WAHOO_OPCODES.SET_ERG_MODE = 0x42`. -/
def WAHOO_SET_ERG_MODE : ℕ := 0x42

/-- Command byte layout built in `setTargetPower`:
`[opcode, clampedWatts & 0xff, (clampedWatts >> 8) & 0xff]`. -/
def targetPowerCommand (opcode clampedWatts : ℕ) : List ℕ :=
  [opcode, clampedWatts % 256, (clampedWatts / 256) % 256]

/-- The clamp performed by `setTargetPower`:
`Math.max(0, Math.min(2000, Math.round(watts)))`. -/
def clampTargetWatts (watts : ℚ) : ℕ := (max 0 (min 2000 (jsRound watts))).toNat

/-- Source `setTargetPower(watts)`: fail fast when not connected;
otherwise clamp to `[0, 2000]`, try the FTMS control point when it is
the active protocol, and on failure (or when FTMS is not active) fall
through to the Wahoo extension characteristic when present.  Returns
the boolean result together with the list of writes attempted, in
order. -/
def setTargetPower (connectionState : TrainerConnectionState)
    (capabilities : TrainerCapabilities) (refs : TrainerRefs)
    (oc : WriteOutcomes) (watts : ℚ) : Bool × List WireWrite :=
  if connectionState ≠ .connected then (false, [])
  else
    let clampedWatts := clampTargetWatts watts
    let tryFtms := refs.ftmsControlPoint ∧ capabilities.controlProtocol = .ftms
    let ftmsWrites : List WireWrite :=
      if tryFtms then [.ftmsWrite (targetPowerCommand FTMS_SET_TARGET_POWER clampedWatts)] else []
    if tryFtms ∧ oc.ftmsOk then (true, ftmsWrites)
    else
      let tryWahoo := refs.wahooTrainer ∧ capabilities.hasWahooExtension
      let wahooWrites : List WireWrite :=
        if tryWahoo then [.wahooWrite (targetPowerCommand WAHOO_SET_ERG_MODE clampedWatts)] else []
      if tryWahoo ∧ oc.wahooOk then (true, ftmsWrites ++ wahooWrites)
      else (false, ftmsWrites ++ wahooWrites)

/-! ## Wire codec (`use-trainer.ts` notification parsers)

The `DataView` getters throw a `RangeError` when the read runs past the
end of the packet; this is modelled by `Option`, `none` standing for a
thrown exception escaping the parser. -/

/-- Model of `DataView.getUint8(off)`. -/
def getUint8 (bytes : List ℕ) (off : ℕ) : Option ℕ := bytes[off]?

/-- Model of `DataView.getUint16(off, true)` (little-endian).  Faithful
for byte lists whose entries are `< 256`. -/
def getUint16LE (bytes : List ℕ) (off : ℕ) : Option ℕ := do
  let b0 ← bytes[off]?
  let b1 ← bytes[off + 1]?
  pure (b0 + 256 * b1)

/-- Model of `DataView.getInt16(off, true)`: the unsigned 16-bit value
reinterpreted as two's complement. -/
def getInt16LE (bytes : List ℕ) (off : ℕ) : Option ℤ :=
  (getUint16LE bytes off).map fun u =>
    if u < 32768 then (u : ℤ) else (u : ℤ) - 65536

/-- Decode result of `parseFTMSIndoorBikeData`: the `Partial<TrainerMetrics>`
fields it can set (`none` = field left untouched). -/
structure FTMSDelta where
  speed : Option ℚ
  cadence : Option ℤ
  power : Option ℤ
  heartRate : Option ℕ
  deriving Repr, DecidableEq

/-- Source `parseFTMSIndoorBikeData(data)`: flag-gated fields consumed at
cumulative offsets in fixed order.  Speed is present when bit 0 is
*clear*; average-speed, average-cadence, total-distance, resistance and
average-power fields are skipped (offset advanced, no read) when their
bits are set. -/
def parseFTMSIndoorBikeData (bytes : List ℕ) : Option FTMSDelta := do
  let flags ← getUint16LE bytes 0
  let offset := 2
  let (speed, offset) ←
    if flags &&& 0x01 = 0 then do
      let raw ← getUint16LE bytes offset
      pure (some ((raw : ℚ) / 100), offset + 2)
    else pure (none, offset)
  let offset := if flags &&& 0x02 ≠ 0 then offset + 2 else offset
  let (cadence, offset) ←
    if flags &&& 0x04 ≠ 0 then do
      let raw ← getUint16LE bytes offset
      pure (some (jsRound ((raw : ℚ) / 2)), offset + 2)
    else pure (none, offset)
  let offset := if flags &&& 0x08 ≠ 0 then offset + 2 else offset
  let offset := if flags &&& 0x10 ≠ 0 then offset + 3 else offset
  let offset := if flags &&& 0x20 ≠ 0 then offset + 2 else offset
  let (power, offset) ←
    if flags &&& 0x40 ≠ 0 then do
      let raw ← getInt16LE bytes offset
      pure (some raw, offset + 2)
    else pure (none, offset)
  let offset := if flags &&& 0x80 ≠ 0 then offset + 2 else offset
  let heartRate ←
    if flags &&& 0x200 ≠ 0 then do
      let raw ← getUint8 bytes offset
      pure (some raw)
    else pure (none : Option ℕ)
  pure ⟨speed, cadence, power, heartRate⟩

/-- Cadence derivation block inside `parseCyclingPowerMeasurement`
(lines 189–203): given the stored previous crank sample and the new one,
produce the cadence update this packet contributes (`none` = no update).
Differences are taken modulo 65536 (`(new - old + 65536) % 65536` in the
source; `Int.emod` agrees with the JavaScript expression whenever both
samples are 16-bit values). -/
def crankCadence (lastRevs lastTime : Option ℕ) (crankRevs crankTime : ℕ) :
    Option ℤ :=
  match lastRevs, lastTime with
  | some lr, some lt =>
    let dRevs : ℤ := ((crankRevs : ℤ) - lr + 65536) % 65536
    let dTime : ℤ := ((crankTime : ℤ) - lt + 65536) % 65536
    if 0 < dTime ∧ dRevs < 100 then
      let dTimeSec : ℚ := (dTime : ℚ) / 1024
      let rpm : ℚ := ((dRevs : ℚ) / dTimeSec) * 60
      if rpm < 200 then some (jsRound rpm) else none
    else if 2048 < dTime then some 0
    else none
  | _, _ => none

/-- Decode result of `parseCyclingPowerMeasurement`: the instantaneous
power, the cadence update contributed by this packet (`none` = no
update), and the new values of the two crank refs. -/
structure CPMResult where
  power : ℤ
  cadence : Option ℤ
  lastCrankRevs : Option ℕ
  lastCrankTime : Option ℕ
  deriving Repr, DecidableEq

/-- Source `parseCyclingPowerMeasurement(data)`: power at bytes 2–3 is
always read; balance (1 B), torque (2 B) and wheel-revolution (6 B)
fields are skipped per flag bits; the crank-revolution field (flag bit
5) is read and fed to the cadence derivation.  `lastCrankRevs` /
`lastCrankTime` are the `lastCrankRevsRef` / `lastCrankTimeRef` values
before the packet. -/
def parseCyclingPowerMeasurement (bytes : List ℕ)
    (lastCrankRevs lastCrankTime : Option ℕ) : Option CPMResult := do
  let flags ← getUint16LE bytes 0
  let power ← getInt16LE bytes 2
  let offset := 4
  let offset := if flags &&& 0x01 ≠ 0 then offset + 1 else offset
  let offset := if flags &&& 0x04 ≠ 0 then offset + 2 else offset
  let offset := if flags &&& 0x10 ≠ 0 then offset + 6 else offset
  if flags &&& 0x20 ≠ 0 then do
    let crankRevs ← getUint16LE bytes offset
    let crankTime ← getUint16LE bytes (offset + 2)
    pure ⟨power, crankCadence lastCrankRevs lastCrankTime crankRevs crankTime,
          some crankRevs, some crankTime⟩
  else
    pure ⟨power, none, lastCrankRevs, lastCrankTime⟩

/-- Byte count implied by a cycling-power-measurement flags field (the
offsets the parser walks through): 2 flags + 2 power, then 1/2/6/4 bytes
for balance, torque, wheel-revolution and crank-revolution data. -/
def cpmImpliedLength (flags : ℕ) : ℕ :=
  4 + (if flags &&& 0x01 ≠ 0 then 1 else 0) + (if flags &&& 0x04 ≠ 0 then 2 else 0) +
    (if flags &&& 0x10 ≠ 0 then 6 else 0) + (if flags &&& 0x20 ≠ 0 then 4 else 0)

/-- Byte count implied by an indoor-bike-data flags field. -/
def ftmsImpliedLength (flags : ℕ) : ℕ :=
  2 + (if flags &&& 0x01 = 0 then 2 else 0) + (if flags &&& 0x02 ≠ 0 then 2 else 0) +
    (if flags &&& 0x04 ≠ 0 then 2 else 0) + (if flags &&& 0x08 ≠ 0 then 2 else 0) +
    (if flags &&& 0x10 ≠ 0 then 3 else 0) + (if flags &&& 0x20 ≠ 0 then 2 else 0) +
    (if flags &&& 0x40 ≠ 0 then 2 else 0) + (if flags &&& 0x80 ≠ 0 then 2 else 0) +
    (if flags &&& 0x200 ≠ 0 then 1 else 0)

/-! ## Session analytics (`workout-utils.ts`, recorded-trace half) -/

/-- Source `RecordedDataPoint` from `types/trainer.ts`. -/
structure RecordedDataPoint where
  timestamp : ℚ
  elapsedTime : ℚ
  targetPower : ℚ
  actualPower : Option ℚ
  cadence : Option ℚ
  heartRate : Option ℚ
  segmentIndex : ℤ
  deriving Repr, DecidableEq

/-- Source `averageDataPoints(points)`: throws on an empty array
(modelled as `none`), copies a single point, and otherwise averages —
each nullable metric only over its non-null samples, yielding `null`
when a bucket has none. -/
def averageDataPoints (points : List RecordedDataPoint) : Option RecordedDataPoint :=
  match points with
  | [] => none
  | [p] => some p
  | p :: q :: rest =>
    let pts := p :: q :: rest
    let n : ℚ := (pts.length : ℚ)
    let avgElapsedTime := (pts.foldl (fun s r => s + r.elapsedTime) 0) / n
    let avgTargetPower := (pts.foldl (fun s r => s + r.targetPower) 0) / n
    let powerValues := pts.filterMap (fun r => r.actualPower)
    let cadenceValues := pts.filterMap (fun r => r.cadence)
    let hrValues := pts.filterMap (fun r => r.heartRate)
    some
      { timestamp := (pts.getD (pts.length / 2) p).timestamp
        elapsedTime := ((jsRound avgElapsedTime : ℤ) : ℚ)
        targetPower := ((jsRound avgTargetPower : ℤ) : ℚ)
        actualPower :=
          if powerValues.length > 0 then
            some ((jsRound (powerValues.sum / (powerValues.length : ℚ)) : ℤ) : ℚ)
          else none
        cadence :=
          if cadenceValues.length > 0 then
            some ((jsRound (cadenceValues.sum / (cadenceValues.length : ℚ)) : ℤ) : ℚ)
          else none
        heartRate :=
          if hrValues.length > 0 then
            some ((jsRound (hrValues.sum / (hrValues.length : ℚ)) : ℤ) : ℚ)
          else none
        segmentIndex := ((pts.getLast?).getD p).segmentIndex }

/-- The valid power samples of a recorded trace, as `(time, power)`
pairs: `data.filter(p => p.actualPower !== null && p.actualPower > 0)`
then `.map(p => ({time: p.elapsedTime, power: p.actualPower}))` — the
filter both `calculateNormalizedPower` and `calculatePeakPower` open
with. -/
def validPowerSamples (data : List RecordedDataPoint) : List (ℚ × ℚ) :=
  data.filterMap fun p =>
    p.actualPower.bind fun w => if 0 < w then some (p.elapsedTime, w) else none

/-- Bounded search for `Math.round(Math.pow(q, 0.25))`: walk `n` upward
until `16 q < (2n + 1)^4`, i.e. until `q^(1/4) < n + 1/2`. -/
def root4RoundAux : ℕ → ℕ → ℚ → ℕ
  | 0, n, _ => n
  | fuel + 1, n, q =>
    if 16 * q < (((2 * n + 1 : ℕ) : ℚ)) ^ 4 then n else root4RoundAux fuel (n + 1) q

/-- Exact model of `Math.round(Math.pow(q, 0.25))` for `q ≥ 0`: the
least `n` with `q^(1/4) < n + 1/2`, equivalently with
`16 q < (2n + 1)^4`.  The fuel `⌈q⌉₊ + 1` always suffices because
`16 q ≤ 16 ⌈q⌉₊^4 < (2 ⌈q⌉₊ + 1)^4` once `⌈q⌉₊ ≥ 1`. -/
def rat4RootRound (q : ℚ) : ℕ := root4RoundAux (⌈q⌉₊ + 1) 0 q

/-- One iteration of the rolling-average loop in the source's private
`calculateNormalizedPower`: the trailing 30-second window ending at
sample `s` (samples with time strictly greater than `s.time - 30` and at
most `s.time`), averaged when non-empty (the source pushes onto
`rollingAverages` only under `windowPoints.length > 0`). -/
def rollingAverageAt (powerValues : List (ℚ × ℚ)) (s : ℚ × ℚ) : Option ℚ :=
  let windowPoints := powerValues.filter fun p =>
    decide (s.1 - 30 < p.1) && decide (p.1 ≤ s.1)
  if windowPoints.isEmpty then none
  else some ((windowPoints.map Prod.snd).sum / (windowPoints.length : ℚ))

/-- Source private `calculateNormalizedPower(data)` of `workout-utils.ts`
(recorded-trace version): mean power when fewer than 30 valid samples
(absent when none), otherwise the rounded fourth root of the mean of the
fourth powers of the 30-second trailing rolling averages. -/
def calculateNormalizedPower (data : List RecordedDataPoint) : Option ℤ :=
  let powerValues := validPowerSamples data
  if powerValues.length < 30 then
    if powerValues.length = 0 then none
    else some (jsRound ((powerValues.map Prod.snd).sum / (powerValues.length : ℚ)))
  else
    let rollingAverages : List ℚ := powerValues.filterMap (rollingAverageAt powerValues)
    if rollingAverages.isEmpty then none
    else
      let fourthPowerAvg :=
        (rollingAverages.map (fun a => a ^ 4)).sum / (rollingAverages.length : ℚ)
      some ((rat4RootRound fourthPowerAvg : ℤ))

/-- Source private `calculateTSS(normalizedPower, durationSeconds, ftp)`:
`round(durationSeconds * NP * (NP / ftp) / (ftp * 3600) * 100)`. -/
def calculateTSS (normalizedPower : ℤ) (durationSeconds ftp : ℚ) : ℤ :=
  let intensityFactor := (normalizedPower : ℚ) / ftp
  jsRound (durationSeconds * (normalizedPower : ℚ) * intensityFactor / (ftp * 3600) * 100)

/-- Source `calculatePeakPower(data, durationSeconds)`: max instantaneous
power for durations `≤ 5` s, otherwise the best windowed average over
windows ending at each sample that cover at least 80 % of the nominal
duration. -/
def calculatePeakPower (data : List RecordedDataPoint) (durationSeconds : ℚ) :
    Option ℚ :=
  match validPowerSamples data with
  | [] => none
  | w :: ws =>
    let powerValues := w :: ws
    if durationSeconds ≤ 5 then
      some ((ws.map Prod.snd).foldl max w.2)
    else
      let maxAvgPower := powerValues.foldl
        (fun m s =>
          let windowPoints := powerValues.filter fun p =>
            decide (s.1 - durationSeconds < p.1) && decide (p.1 ≤ s.1)
          if durationSeconds * (8 / 10) ≤ (windowPoints.length : ℚ) then
            max m ((windowPoints.map Prod.snd).sum / (windowPoints.length : ℚ))
          else m)
        0
      if 0 < maxAvgPower then some ((jsRound maxAvgPower : ℤ) : ℚ) else none

/-- Source `PeakPower` from `types/workout.ts`. -/
structure PeakPower where
  duration : ℚ
  power : ℚ
  deriving Repr, DecidableEq

/-- Source `calculatePeakPowers(data, workoutDuration)`: the fixed
duration ladder, each rung only evaluated when the session is long
enough and kept only when a peak exists. -/
def calculatePeakPowers (data : List RecordedDataPoint) (workoutDuration : ℚ) :
    List PeakPower :=
  ([5, 30, 60, 300, 600, 1200, 1800, 3600] : List ℚ).filterMap fun d =>
    if d ≤ workoutDuration then
      (calculatePeakPower data d).map fun p => PeakPower.mk d p
    else none

/-- Source `CompletedWorkoutSummary` from `types/workout.ts`. -/
structure CompletedWorkoutSummary where
  actualDuration : ℚ
  avgPower : Option ℚ
  maxPower : Option ℚ
  avgCadence : Option ℚ
  avgHeartRate : Option ℚ
  maxHeartRate : Option ℚ
  normalizedPower : Option ℤ
  actualTSS : Option ℤ
  peakPowers : List PeakPower
  deriving Repr, DecidableEq

/-- Source `calculateWorkoutSummary(data, ftp)`. -/
def calculateWorkoutSummary (data : List RecordedDataPoint) (ftp : ℚ) :
    CompletedWorkoutSummary :=
  match data with
  | [] => ⟨0, none, none, none, none, none, none, none, []⟩
  | p :: rest =>
    let pts := p :: rest
    let actualDuration := rest.foldl (fun m r => max m r.elapsedTime) p.elapsedTime
    let powerValues := pts.filterMap fun r =>
      r.actualPower.bind fun w => if 0 < w then some w else none
    let cadenceValues := pts.filterMap fun r => r.cadence
    let hrValues := pts.filterMap fun r => r.heartRate
    let avgPower : Option ℚ :=
      match powerValues with
      | [] => none
      | _ => some ((jsRound (powerValues.sum / (powerValues.length : ℚ)) : ℤ) : ℚ)
    let maxPower : Option ℚ :=
      match powerValues with
      | [] => none
      | w :: ws => some (ws.foldl max w)
    let avgCadence : Option ℚ :=
      match cadenceValues with
      | [] => none
      | _ => some ((jsRound (cadenceValues.sum / (cadenceValues.length : ℚ)) : ℤ) : ℚ)
    let avgHeartRate : Option ℚ :=
      match hrValues with
      | [] => none
      | _ => some ((jsRound (hrValues.sum / (hrValues.length : ℚ)) : ℤ) : ℚ)
    let maxHeartRate : Option ℚ :=
      match hrValues with
      | [] => none
      | w :: ws => some (ws.foldl max w)
    let normalizedPower := calculateNormalizedPower pts
    let actualTSS : Option ℤ :=
      match normalizedPower with
      | some np => if 0 < ftp then some (calculateTSS np actualDuration ftp) else none
      | none => none
    ⟨actualDuration, avgPower, maxPower, avgCadence, avgHeartRate, maxHeartRate,
      normalizedPower, actualTSS, calculatePeakPowers pts actualDuration⟩

/-! ## Test vectors -/

/-- A flat recorded trace: `n` one-second samples, all with actual power
`w` (and no cadence / heart-rate data). -/
def flatTrace (n : ℕ) (w : ℚ) : List RecordedDataPoint :=
  (List.range n).map fun i => ⟨(i : ℚ), (i : ℚ), w, some w, none, none, 0⟩

/-- The two-segment workout of the spec's determinism example:
`[{duration:300, power:50→70}, {duration:600, power:90}]`. -/
def demoSegments : List Segment :=
  [⟨"a", 300, ⟨50, some 70⟩, none⟩, ⟨"b", 600, ⟨90, none⟩, none⟩]

/-- Decimal value of a digit character (inverse of `Nat.digitChar` below 10). -/
def digitVal (c : Char) : ℕ := c.toNat - '0'.toNat

/-- Numeric value of a big-endian decimal digit list (used to invert
`Nat.repr` when proving expanded segment ids distinct). -/
def valOfDigits : List Char → ℕ
  | [] => 0
  | c :: cs => digitVal c * 10 ^ cs.length + valOfDigits cs

/-! ## Helper lemmas -/

lemma foldl_add_map {α : Type} (f : α → ℚ) (l : List α) (init : ℚ) :
    l.foldl (fun s x => s + f x) init = init + (l.map f).sum := by
  induction l generalizing init with
  | nil => simp
  | cons a t ih => simp only [List.foldl_cons, ih, List.map_cons, List.sum_cons]; ring

lemma totalDurationOf_eq (l : List Segment) :
    totalDurationOf l = (l.map Segment.duration).sum := by
  simpa [totalDurationOf] using foldl_add_map Segment.duration l 0

lemma calculateTotalDuration_eq (l : List Segment) :
    calculateTotalDuration l =
      (l.map fun s => s.duration * (jsRepeat s.«repeat» : ℚ)).sum := by
  simpa [calculateTotalDuration] using
    foldl_add_map (fun s : Segment => s.duration * (jsRepeat s.«repeat» : ℚ)) l 0

lemma digitVal_digitChar {m : ℕ} (h : m < 10) : digitVal (Nat.digitChar m) = m := by
  interval_cases m <;> rfl

lemma valOfDigits_toDigitsCore :
    ∀ (fuel n : ℕ) (ds : List Char), n < fuel →
      valOfDigits (Nat.toDigitsCore 10 fuel n ds) = n * 10 ^ ds.length + valOfDigits ds := by
  intro fuel
  induction fuel with
  | zero => exact fun n ds h => absurd h (Nat.not_lt_zero n)
  | succ fuel ih =>
    intro n ds h
    rw [Nat.toDigitsCore]
    by_cases h0 : n / 10 = 0
    · have hn10 : n < 10 := by omega
      have hmod : n % 10 = n := Nat.mod_eq_of_lt hn10
      simp only [h0, if_true]
      simp [valOfDigits, hmod, digitVal_digitChar hn10]
    · have hpos : 0 < n := by
        rcases Nat.eq_zero_or_pos n with h' | h'
        · exact absurd (by simp [h']) h0
        · exact h'
      have hlt : n / 10 < fuel :=
        lt_of_lt_of_le (Nat.div_lt_self hpos (by norm_num)) (Nat.lt_succ_iff.mp h)
      simp only [h0, if_false]
      rw [ih (n / 10) (Nat.digitChar (n % 10) :: ds) hlt]
      have hdig : digitVal (Nat.digitChar (n % 10)) = n % 10 :=
        digitVal_digitChar (Nat.mod_lt n (by norm_num))
      have key : n / 10 * 10 + n % 10 = n := by omega
      calc n / 10 * 10 ^ (Nat.digitChar (n % 10) :: ds).length +
            valOfDigits (Nat.digitChar (n % 10) :: ds)
          = (n / 10 * 10 + n % 10) * 10 ^ ds.length + valOfDigits ds := by
            simp only [List.length_cons, valOfDigits, hdig, pow_succ]; ring
        _ = n * 10 ^ ds.length + valOfDigits ds := by rw [key]

lemma valOfDigits_toDigits (n : ℕ) : valOfDigits (Nat.toDigits 10 n) = n := by
  simpa [Nat.toDigits, valOfDigits] using
    valOfDigits_toDigitsCore (n + 1) n [] (Nat.lt_succ_self n)

lemma repr_data_inj {m n : ℕ} (h : (Nat.repr m).data = (Nat.repr n).data) : m = n := by
  have hlist : Nat.toDigits 10 m = Nat.toDigits 10 n := by
    simpa [Nat.repr, List.asString] using h
  have hm := valOfDigits_toDigits m
  rw [hlist, valOfDigits_toDigits n] at hm
  exact hm.symm

lemma expandCopy_id_inj (s : Segment) {i j : ℕ}
    (h : (expandCopy s i).id = (expandCopy s j).id) : i = j := by
  apply repr_data_inj
  have h' := congrArg String.data h
  simp only [expandCopy, String.data_append, List.append_assoc] at h'
  exact List.append_cancel_left (List.append_cancel_left h')

lemma expandRepeatedSegments_cons (s : Segment) (rest : List Segment) :
    expandRepeatedSegments (s :: rest) =
      (List.range (jsRepeat s.«repeat»)).map (expandCopy s) ++
        expandRepeatedSegments rest := by
  simp [expandRepeatedSegments]

/-! ## Claim theorems -/

/-- Counterexample for claim C10.  The claim states that a segment with
`repeat = N` is replaced by exactly `N` unit copies; for `repeat = 0`
(`N = 0`) the source's `segment.repeat || 1` treats 0 as unset (0 is
falsy), so one copy is produced instead of zero. -/
theorem c10_counterexample :
    (expandRepeatedSegments
        [{ id := "a", duration := 60, targetPower := ⟨100, none⟩, «repeat» := some 0 }]).length
      = 1 ∧ (1 : ℕ) ≠ 0 := by
  constructor
  · rfl
  · decide

/-- Claim C10 (amended: a segment with `repeat = N` is replaced by
`N` copies where 0 — being falsy — is treated like unset, i.e. by
`jsRepeat` of the field): the expansion produces `jsRepeat` copies per
segment, every expanded segment carries `repeat = 1`, the duration sum
of the expanded list equals `calculateTotalDuration` of the original
list, and the copies of any one segment have pairwise distinct ids. -/
theorem c10_expand (segments : List Segment) :
    totalDurationOf (expandRepeatedSegments segments) = calculateTotalDuration segments ∧
    (expandRepeatedSegments segments).length =
      (segments.map fun s => jsRepeat s.«repeat»).sum ∧
    (∀ s ∈ expandRepeatedSegments segments, s.«repeat» = some 1) ∧
    (∀ seg : Segment, ((expandRepeatedSegments [seg]).map Segment.id).Nodup) := by
  refine ⟨?_, ?_, ?_, ?_⟩
  · induction segments with
    | nil => simp [expandRepeatedSegments, totalDurationOf, calculateTotalDuration]
    | cons s rest ih =>
      have ih' : ((expandRepeatedSegments rest).map Segment.duration).sum =
          (rest.map fun r => r.duration * (jsRepeat r.«repeat» : ℚ)).sum := by
        rw [← totalDurationOf_eq, ← calculateTotalDuration_eq]; exact ih
      have hcopy : (((List.range (jsRepeat s.«repeat»)).map (expandCopy s)).map
          Segment.duration).sum = s.duration * (jsRepeat s.«repeat» : ℚ) := by
        rw [List.map_map]
        have : (Segment.duration ∘ expandCopy s) = fun _ : ℕ => s.duration := by
          funext i; rfl
        rw [this, List.map_const', List.length_range, List.sum_replicate, nsmul_eq_mul]
        ring
      rw [expandRepeatedSegments_cons, totalDurationOf_eq, List.map_append,
        List.sum_append, calculateTotalDuration_eq, List.map_cons, List.sum_cons,
        ih', hcopy]
  · induction segments with
    | nil => rfl
    | cons s rest ih =>
      rw [expandRepeatedSegments_cons, List.length_append, List.map_cons,
        List.sum_cons, ih, List.length_map, List.length_range]
  · intro s hs
    simp only [expandRepeatedSegments, List.mem_flatMap, List.mem_map] at hs
    obtain ⟨seg, -, i, -, rfl⟩ := hs
    rfl
  · intro seg
    have : expandRepeatedSegments [seg] =
        (List.range (jsRepeat seg.«repeat»)).map (expandCopy seg) := by
      simp [expandRepeatedSegments]
    rw [this, List.map_map]
    exact (List.nodup_range _).map fun i j h => expandCopy_id_inj seg h

/-- Witness for `c10_expand` at a concrete segment list. -/
theorem c10_expand_witness :
    totalDurationOf (expandRepeatedSegments
        [⟨"w", 60, ⟨100, none⟩, some 3⟩, ⟨"r", 120, ⟨55, none⟩, none⟩]) =
      calculateTotalDuration
        [⟨"w", 60, ⟨100, none⟩, some 3⟩, ⟨"r", 120, ⟨55, none⟩, none⟩] ∧
    (expandCopy ⟨"w", 60, ⟨100, none⟩, some 3⟩ 0).«repeat» = some 1 ∧
    ((expandRepeatedSegments [⟨"w", 60, ⟨100, none⟩, some 3⟩]).map Segment.id).Nodup := by
  refine ⟨(c10_expand _).1, ?_, (c10_expand []).2.2.2 _⟩
  exact (c10_expand [⟨"w", 60, ⟨100, none⟩, some 3⟩]).2.2.1 _ (by decide)

lemma getCumulativeDuration_natCast (segs : List Segment) (i : ℕ) :
    getCumulativeDuration segs (i : ℤ) = ((segs.take i).map Segment.duration).sum := by
  rw [getCumulativeDuration, jsSlice0, if_pos (Int.natCast_nonneg i), Int.toNat_natCast]
  simpa using foldl_add_map Segment.duration (segs.take i) 0

lemma findSegAux_spec :
    ∀ (segs : List Segment) (t acc : ℚ) (i0 : ℕ), acc ≤ t →
      t < acc + (segs.map Segment.duration).sum →
      ∃ k : ℕ,
        findSegAux segs t acc i0 =
          some (i0 + k, t - (acc + ((segs.take k).map Segment.duration).sum)) ∧
        t < acc + ((segs.take (k + 1)).map Segment.duration).sum ∧
        ∀ j : ℕ, j < k → acc + ((segs.take (j + 1)).map Segment.duration).sum ≤ t := by
  intro segs
  induction segs with
  | nil =>
    intro t acc i0 hle hlt
    simp only [List.map_nil, List.sum_nil, add_zero] at hlt
    exact absurd hle (not_le.mpr hlt)
  | cons s rest ih =>
    intro t acc i0 hle hlt
    rw [findSegAux]
    by_cases hfirst : t < acc + s.duration
    · refine ⟨0, ?_, ?_, fun j hj => absurd hj (Nat.not_lt_zero j)⟩
      · rw [if_pos hfirst]; simp
      · simpa using hfirst
    · rw [if_neg hfirst]
      have hacc' : acc + s.duration ≤ t := not_lt.mp hfirst
      have hlt' : t < (acc + s.duration) + (rest.map Segment.duration).sum := by
        simp only [List.map_cons, List.sum_cons] at hlt
        linarith
      obtain ⟨k, heq, hub, hlb⟩ := ih t (acc + s.duration) (i0 + 1) hacc' hlt'
      refine ⟨k + 1, ?_, ?_, ?_⟩
      · rw [heq]
        have : i0 + 1 + k = i0 + (k + 1) := by omega
        simp [this, List.take_succ_cons, add_assoc]
      · simpa [List.take_succ_cons, add_assoc] using hub
      · intro j hj
        match j with
        | 0 => simpa using hacc'
        | j' + 1 =>
          have := hlb j' (by omega)
          simpa [List.take_succ_cons, add_assoc] using this

/-- Claim C6: current-segment resolution returns the first segment whose
cumulative end strictly exceeds the elapsed time, with
`segmentElapsedTime` measured from that segment's cumulative start
(instantiated by the spec example `[300, 600]` at `t = 450` giving
index 1, segment-elapsed 150); and once the advanced elapsed time
reaches the total duration, `tick` sets status `completed` and pins the
index and segment-elapsed time to the final segment's final instant. -/
theorem c6_segment_resolution :
    (∀ (segs : List Segment) (t : ℚ), 0 ≤ t → t < totalDurationOf segs →
      ∃ i : ℕ,
        findSegmentAtTime segs t = ((i : ℤ), t - getCumulativeDuration segs (i : ℤ)) ∧
        t < getCumulativeDuration segs ((i : ℕ) + 1 : ℕ) ∧
        ∀ j : ℕ, j < i → getCumulativeDuration segs ((j : ℕ) + 1 : ℕ) ≤ t) ∧
    findSegmentAtTime demoSegments 450 = (1, 150) ∧
    (∀ (segs : List Segment) (st : PlayerState) (delta : ℚ),
      st.status = .playing → totalDurationOf segs ≤ st.elapsedTime + delta →
      tick segs st delta =
        { st with
          status := .completed
          elapsedTime := totalDurationOf segs
          currentSegmentIndex := (segs.length : ℤ) - 1
          segmentElapsedTime := ((segs.getLast?).map Segment.duration).getD 0 }) := by
  refine ⟨?_, by norm_num [findSegmentAtTime, findSegAux, demoSegments], ?_⟩
  · intro segs t ht0 htlt
    rw [totalDurationOf_eq] at htlt
    obtain ⟨k, heq, hub, hlb⟩ :=
      findSegAux_spec segs t 0 0 ht0 (by simpa using htlt)
    refine ⟨k, ?_, ?_, ?_⟩
    · rw [findSegmentAtTime, heq]
      simp [getCumulativeDuration_natCast]
    · rw [getCumulativeDuration_natCast]
      simpa using hub
    · intro j hj
      rw [getCumulativeDuration_natCast]
      simpa using hlb j hj
  · intro segs st delta hplay htot
    rw [tick, if_neg (by simp [hplay])]
    simp only [if_pos htot]

/-- Witness for `c6_segment_resolution` at the spec's concrete inputs. -/
theorem c6_witness :
    (∃ i : ℕ,
      findSegmentAtTime demoSegments 450 =
        ((i : ℤ), 450 - getCumulativeDuration demoSegments (i : ℤ)) ∧
      (450 : ℚ) < getCumulativeDuration demoSegments ((i : ℕ) + 1 : ℕ) ∧
      ∀ j : ℕ, j < i → getCumulativeDuration demoSegments ((j : ℕ) + 1 : ℕ) ≤ 450) ∧
    tick demoSegments ⟨.playing, 890, 1, 590, .erg, 0⟩ 20 =
      ⟨.completed, 900, 1, 600, .erg, 0⟩ := by
  refine ⟨c6_segment_resolution.1 demoSegments 450 (by norm_num)
      (by norm_num [totalDurationOf, demoSegments]), ?_⟩
  have h := c6_segment_resolution.2.2 demoSegments ⟨.playing, 890, 1, 590, .erg, 0⟩ 20
    rfl (by norm_num [totalDurationOf, demoSegments])
  refine h.trans ?_
  norm_num [totalDurationOf, demoSegments]

/-- Counterexample for claim C2.  The claim says skipBackward at
`segmentElapsedTime = 2` restarts the same segment and at
`segmentElapsedTime = 10` moves to the previous segment; the source does
the reverse: at 2 s (≤ 3) it moves to the previous segment (index drops
from 1 to 0), and at 10 s (> 3) it restarts the current segment (index
stays 1, elapsed time returns to the segment's start, 300). -/
theorem c2_counterexample :
    (skipBackward demoSegments ⟨.playing, 302, 1, 2, .erg, 0⟩).currentSegmentIndex = 0 ∧
    (0 : ℤ) ≠ 1 ∧
    (skipBackward demoSegments ⟨.playing, 310, 1, 10, .erg, 0⟩).currentSegmentIndex = 1 ∧
    (skipBackward demoSegments ⟨.playing, 310, 1, 10, .erg, 0⟩).elapsedTime = 300 := by
  refine ⟨?_, by decide, ?_, ?_⟩ <;>
    norm_num [skipBackward, getCumulativeDuration, jsSlice0, demoSegments]

/-- Claim C2 (amended: the two behaviours are swapped relative to the
claim).  With `segmentElapsedTime ≤ 3` — within 3 seconds of the current
segment's start — `skipBackward` moves to the previous segment's
boundary (clamped at the first segment); with `segmentElapsedTime > 3`
it restarts the current segment. -/
theorem c2_skip_backward (segs : List Segment) (st : PlayerState) :
    (st.segmentElapsedTime ≤ 3 →
      (skipBackward segs st).currentSegmentIndex = max 0 (st.currentSegmentIndex - 1) ∧
      (skipBackward segs st).segmentElapsedTime = 0 ∧
      (skipBackward segs st).elapsedTime =
        getCumulativeDuration segs (max 0 (st.currentSegmentIndex - 1))) ∧
    (3 < st.segmentElapsedTime →
      (skipBackward segs st).currentSegmentIndex = st.currentSegmentIndex ∧
      (skipBackward segs st).segmentElapsedTime = 0 ∧
      (skipBackward segs st).elapsedTime =
        getCumulativeDuration segs st.currentSegmentIndex ∧
      (skipBackward segs st).status = st.status) := by
  constructor
  · intro h
    rw [skipBackward, if_neg (not_lt.mpr h)]
    exact ⟨rfl, rfl, rfl⟩
  · intro h
    rw [skipBackward, if_pos h]
    exact ⟨rfl, rfl, rfl, rfl⟩

/-- Witness for `c2_skip_backward` at the claim's two inputs
(`segmentElapsedTime` 2 and 10 in segment 1 of the demo workout). -/
theorem c2_skip_backward_witness :
    ((skipBackward demoSegments ⟨.playing, 302, 1, 2, .erg, 0⟩).currentSegmentIndex =
        max 0 ((1 : ℤ) - 1) ∧
      (skipBackward demoSegments ⟨.playing, 302, 1, 2, .erg, 0⟩).segmentElapsedTime = 0 ∧
      (skipBackward demoSegments ⟨.playing, 302, 1, 2, .erg, 0⟩).elapsedTime =
        getCumulativeDuration demoSegments (max 0 ((1 : ℤ) - 1))) ∧
    ((skipBackward demoSegments ⟨.playing, 310, 1, 10, .erg, 0⟩).currentSegmentIndex = 1 ∧
      (skipBackward demoSegments ⟨.playing, 310, 1, 10, .erg, 0⟩).segmentElapsedTime = 0 ∧
      (skipBackward demoSegments ⟨.playing, 310, 1, 10, .erg, 0⟩).elapsedTime =
        getCumulativeDuration demoSegments 1 ∧
      (skipBackward demoSegments ⟨.playing, 310, 1, 10, .erg, 0⟩).status = .playing) :=
  ⟨(c2_skip_backward demoSegments ⟨.playing, 302, 1, 2, .erg, 0⟩).1 (by norm_num),
    (c2_skip_backward demoSegments ⟨.playing, 310, 1, 10, .erg, 0⟩).2 (by norm_num)⟩

/-- Counterexample for claim C4.  `calculateTargetPower` clamps only to
`≥ 0`; there is no `threshold×2` upper clamp.  A segment authored at
300 % of FTP with threshold 100 W and zero intensity offset yields a
target of 300 W, exceeding `2 × 100 = 200`. -/
theorem c4_counterexample :
    calculateTargetPower 100 0 ⟨"x", 60, ⟨300, none⟩, none⟩ 0 = 300 ∧
    ¬((300 : ℤ) ≤ 2 * 100) := by
  constructor
  · norm_num [calculateTargetPower, clamp0, jsRound]
  · decide

/-- Claim C4 (amended: `targetPower` is clamped to `≥ 0` and rounded,
and the intensity offset stays within `[-50, 50]` under every sequence
of `adjustIntensity` calls, but there is no upper clamp at
`threshold×2`; the `≤ threshold×2` bound holds only when the
ramp-interpolated segment percent stays `≤ 150`, so that percent plus
offset stays `≤ 200`). -/
theorem c4_target_power_bounds :
    (∀ (ftp intensityOffset : ℚ) (seg : Segment) (progress : ℚ),
      0 ≤ calculateTargetPower ftp intensityOffset seg progress) ∧
    (∀ (start : ℚ) (deltas : List ℚ), -50 ≤ start → start ≤ 50 →
      -50 ≤ deltas.foldl adjustIntensity start ∧
        deltas.foldl adjustIntensity start ≤ 50) ∧
    (∀ (w : ℤ) (intensityOffset : ℚ) (seg : Segment) (progress : ℚ),
      0 ≤ w → -50 ≤ intensityOffset → intensityOffset ≤ 50 →
      seg.targetPower.value ≤ 150 →
      seg.targetPower.valueHigh.getD seg.targetPower.value ≤ 150 →
      0 ≤ progress → progress ≤ 1 →
      calculateTargetPower (w : ℚ) intensityOffset seg progress ≤ 2 * w) := by
  refine ⟨?_, ?_, ?_⟩
  · intro ftp off seg p
    exact le_max_left 0 _
  · intro start deltas
    induction deltas generalizing start with
    | nil => exact fun h1 h2 => ⟨h1, h2⟩
    | cons d t ih =>
      intro _ _
      refine ih (adjustIntensity start d) (le_max_left _ _) ?_
      exact max_le (by norm_num) (min_le_left _ _)
  · intro w off seg p hw hoffl hoffr hS hE hp0 hp1
    simp only [calculateTargetPower, clamp0, jsRound]
    set S := seg.targetPower.value with hSdef
    set E := seg.targetPower.valueHigh.getD seg.targetPower.value with hEdef
    have hperc : S + (E - S) * p + off ≤ 200 := by nlinarith
    have hwq : (0 : ℚ) ≤ (w : ℚ) := by exact_mod_cast hw
    have hx : (S + (E - S) * p + off) / 100 * (w : ℚ) ≤ 2 * (w : ℚ) := by
      have h2 : (S + (E - S) * p + off) / 100 ≤ 2 := by linarith
      have := mul_le_mul_of_nonneg_right h2 hwq
      linarith
    have hfloor : ⌊(S + (E - S) * p + off) / 100 * (w : ℚ) + 1 / 2⌋ ≤ 2 * w := by
      have hle : (S + (E - S) * p + off) / 100 * (w : ℚ) + 1 / 2 ≤
          ((2 * w : ℤ) : ℚ) + 1 / 2 := by push_cast; linarith
      calc ⌊(S + (E - S) * p + off) / 100 * (w : ℚ) + 1 / 2⌋
          ≤ ⌊((2 * w : ℤ) : ℚ) + 1 / 2⌋ := Int.floor_le_floor hle
        _ = 2 * w := by rw [add_comm, Int.floor_add_int]; norm_num
    exact max_le (by omega) hfloor

/-- Witness for `c4_target_power_bounds` at concrete inputs. -/
theorem c4_target_power_bounds_witness :
    0 ≤ calculateTargetPower 100 0 ⟨"x", 60, ⟨50, none⟩, none⟩ (1 / 2) ∧
    (-50 ≤ ([5, 5, 5, -20, 100] : List ℚ).foldl adjustIntensity 0 ∧
      ([5, 5, 5, -20, 100] : List ℚ).foldl adjustIntensity 0 ≤ 50) ∧
    calculateTargetPower ((200 : ℤ) : ℚ) 50 ⟨"x", 60, ⟨100, some 150⟩, none⟩ 1 ≤
      2 * 200 :=
  ⟨c4_target_power_bounds.1 100 0 ⟨"x", 60, ⟨50, none⟩, none⟩ (1 / 2),
    c4_target_power_bounds.2.1 0 [5, 5, 5, -20, 100] (by norm_num) (by norm_num),
    c4_target_power_bounds.2.2 200 50 ⟨"x", 60, ⟨100, some 150⟩, none⟩ 1
      (by norm_num) (by norm_num) (by norm_num) (by norm_num) (by norm_num)
      (by norm_num) (by norm_num)⟩

/-- Counterexample for claim C1.  With the FTMS protocol chosen at
connection time, a failing FTMS write and a present Wahoo extension,
`setTargetPower` does *not* report failure: it falls back to the Wahoo
protocol within the same call, writes the Wahoo command, and returns
success — contradicting "on protocol write failure it reports failure
to the caller and does not automatically fall back". -/
theorem c1_counterexample :
    setTargetPower .connected ⟨true, true, true, .ftms⟩ ⟨true, true⟩ ⟨false, true⟩ 150 =
      (true, [.ftmsWrite [5, 150, 0], .wahooWrite [66, 150, 0]]) := by
  norm_num [setTargetPower, targetPowerCommand, clampTargetWatts, jsRound,
    FTMS_SET_TARGET_POWER, WAHOO_SET_ERG_MODE]
  decide

/-- Claim C1 (amended: when not connected `setTargetPower` fails fast
returning `false` with no write; when connected it clamps to
`[0, 2000]`, encodes, and writes with the protocol chosen at connection
time — but on an FTMS write failure it *does* fall back to the Wahoo
extension within the same call when that characteristic is present,
reporting failure only when no attempted write succeeds). -/
theorem c1_set_target_power :
    (∀ (cs : TrainerConnectionState) (caps : TrainerCapabilities) (refs : TrainerRefs)
        (oc : WriteOutcomes) (watts : ℚ), cs ≠ .connected →
      setTargetPower cs caps refs oc watts = (false, [])) ∧
    (∀ (caps : TrainerCapabilities) (refs : TrainerRefs) (oc : WriteOutcomes) (watts : ℚ),
      refs.ftmsControlPoint = true → caps.controlProtocol = .ftms → oc.ftmsOk = true →
      setTargetPower .connected caps refs oc watts =
        (true, [.ftmsWrite (targetPowerCommand FTMS_SET_TARGET_POWER
          (clampTargetWatts watts))])) ∧
    (∀ (caps : TrainerCapabilities) (refs : TrainerRefs) (oc : WriteOutcomes) (watts : ℚ),
      refs.ftmsControlPoint = true → caps.controlProtocol = .ftms → oc.ftmsOk = false →
      refs.wahooTrainer = true → caps.hasWahooExtension = true → oc.wahooOk = true →
      setTargetPower .connected caps refs oc watts =
        (true, [.ftmsWrite (targetPowerCommand FTMS_SET_TARGET_POWER
            (clampTargetWatts watts)),
          .wahooWrite (targetPowerCommand WAHOO_SET_ERG_MODE (clampTargetWatts watts))])) ∧
    (∀ (caps : TrainerCapabilities) (refs : TrainerRefs) (oc : WriteOutcomes) (watts : ℚ),
      oc.ftmsOk = false →
      (refs.wahooTrainer = false ∨ caps.hasWahooExtension = false ∨ oc.wahooOk = false) →
      (setTargetPower .connected caps refs oc watts).1 = false) ∧
    (∀ watts : ℚ, clampTargetWatts watts ≤ 2000) := by
  refine ⟨?_, ?_, ?_, ?_, ?_⟩
  · intro cs caps refs oc watts h
    rw [setTargetPower, if_pos h]
  · intro caps refs oc watts h1 h2 h3
    simp [setTargetPower, h1, h2, h3]
  · intro caps refs oc watts h1 h2 h3 h4 h5 h6
    simp [setTargetPower, h1, h2, h3, h4, h5, h6]
  · intro caps refs oc watts hf hw
    rcases hw with h | h | h <;> simp [setTargetPower, hf, h]
  · intro watts
    rw [clampTargetWatts]
    omega

/-- Witness for `c1_set_target_power` at concrete adapter states. -/
theorem c1_set_target_power_witness :
    setTargetPower .disconnected ⟨false, false, false, .noProtocol⟩ ⟨false, false⟩
        ⟨true, true⟩ 150 = (false, []) ∧
    setTargetPower .connected ⟨true, false, true, .ftms⟩ ⟨true, false⟩ ⟨true, true⟩ 2500 =
      (true, [.ftmsWrite (targetPowerCommand FTMS_SET_TARGET_POWER
        (clampTargetWatts 2500))]) ∧
    setTargetPower .connected ⟨true, true, true, .ftms⟩ ⟨true, true⟩ ⟨false, true⟩ 150 =
      (true, [.ftmsWrite (targetPowerCommand FTMS_SET_TARGET_POWER (clampTargetWatts 150)),
        .wahooWrite (targetPowerCommand WAHOO_SET_ERG_MODE (clampTargetWatts 150))]) ∧
    (setTargetPower .connected ⟨true, true, true, .ftms⟩ ⟨true, true⟩ ⟨false, false⟩ 150).1 =
      false ∧
    clampTargetWatts 2500 ≤ 2000 :=
  ⟨c1_set_target_power.1 .disconnected _ _ _ 150 (by decide),
    c1_set_target_power.2.1 _ _ _ 2500 rfl rfl rfl,
    c1_set_target_power.2.2.1 _ _ _ 150 rfl rfl rfl rfl rfl rfl,
    c1_set_target_power.2.2.2.1 _ _ _ 150 rfl (Or.inr (Or.inr rfl)),
    c1_set_target_power.2.2.2.2 2500⟩

lemma getUint16LE_isSome {bytes : List ℕ} {off : ℕ} (h : off + 2 ≤ bytes.length) :
    ∃ u, getUint16LE bytes off = some u := by
  have h0 : off < bytes.length := by omega
  have h1 : off + 1 < bytes.length := by omega
  refine ⟨bytes[off] + 256 * bytes[off + 1], ?_⟩
  rw [getUint16LE, List.getElem?_eq_getElem h0, List.getElem?_eq_getElem h1]
  rfl

lemma getInt16LE_isSome {bytes : List ℕ} {off : ℕ} (h : off + 2 ≤ bytes.length) :
    ∃ z, getInt16LE bytes off = some z := by
  obtain ⟨u, hu⟩ := getUint16LE_isSome h
  exact ⟨_, by rw [getInt16LE, hu]; rfl⟩

lemma getUint8_isSome {bytes : List ℕ} {off : ℕ} (h : off + 1 ≤ bytes.length) :
    ∃ b, getUint8 bytes off = some b :=
  ⟨bytes[off], by rw [getUint8, List.getElem?_eq_getElem (by omega)]⟩

lemma getUint16LE_none {bytes : List ℕ} {off : ℕ} (h : bytes.length < off + 2) :
    getUint16LE bytes off = none := by
  have h1 : bytes[off + 1]? = none := List.getElem?_eq_none (by omega)
  rw [getUint16LE, h1]
  cases bytes[off]? <;> rfl

lemma bind_getUint16_isSome {β : Type} {bytes : List ℕ} {off : ℕ} {f : ℕ → Option β}
    (hoff : off + 2 ≤ bytes.length) (hf : ∀ u, (f u).isSome) :
    ((getUint16LE bytes off).bind f).isSome := by
  obtain ⟨u, hu⟩ := getUint16LE_isSome hoff
  rw [hu]
  simpa using hf u

lemma bind_getInt16_isSome {β : Type} {bytes : List ℕ} {off : ℕ} {f : ℤ → Option β}
    (hoff : off + 2 ≤ bytes.length) (hf : ∀ z, (f z).isSome) :
    ((getInt16LE bytes off).bind f).isSome := by
  obtain ⟨z, hz⟩ := getInt16LE_isSome hoff
  rw [hz]
  simpa using hf z

lemma bind_getUint8_isSome {β : Type} {bytes : List ℕ} {off : ℕ} {f : ℕ → Option β}
    (hoff : off + 1 ≤ bytes.length) (hf : ∀ u, (f u).isSome) :
    ((getUint8 bytes off).bind f).isSome := by
  obtain ⟨u, hu⟩ := getUint8_isSome hoff
  rw [hu]
  simpa using hf u

lemma ite_add_ite (c : Prop) [inst : Decidable c] (X k : ℕ) :
    (if c then X + k else X) = X + (if c then k else 0) := by
  split_ifs <;> omega

lemma cpm_isSome {bytes : List ℕ} {lr lt : Option ℕ} {flags : ℕ}
    (hf : getUint16LE bytes 0 = some flags)
    (hlen : cpmImpliedLength flags ≤ bytes.length) :
    (parseCyclingPowerMeasurement bytes lr lt).isSome := by
  have h4 : 4 ≤ bytes.length := by
    refine le_trans ?_ hlen
    rw [cpmImpliedLength]
    split_ifs <;> omega
  rw [parseCyclingPowerMeasurement, hf]
  simp only [Option.some_bind]
  refine bind_getInt16_isSome (by omega) fun p => ?_
  by_cases h20 : flags &&& 0x20 = 0
  · simp [h20]
  · simp only [h20, ne_eq, not_false_eq_true, if_true, if_pos]
    refine bind_getUint16_isSome ?_ fun cr => ?_
    · rw [cpmImpliedLength] at hlen
      split_ifs at hlen ⊢ <;> omega
    · refine bind_getUint16_isSome ?_ fun ct => ?_
      · rw [cpmImpliedLength] at hlen
        split_ifs at hlen ⊢ <;> omega
      · rfl

set_option maxHeartbeats 1000000 in
lemma ftms_isSome {bytes : List ℕ} {flags : ℕ}
    (hf : getUint16LE bytes 0 = some flags)
    (hlen : ftmsImpliedLength flags ≤ bytes.length) :
    (parseFTMSIndoorBikeData bytes).isSome := by
  rw [ftmsImpliedLength] at hlen
  rw [parseFTMSIndoorBikeData, hf]
  simp only [Option.bind_eq_bind, Option.pure_def, Option.some_bind]
  by_cases h0 : flags &&& 0x01 = 0 <;>
    by_cases h2 : flags &&& 0x04 = 0 <;>
      by_cases h6 : flags &&& 0x40 = 0 <;>
        by_cases h9 : flags &&& 0x200 = 0 <;>
          simp only [h0, h2, h6, h9, ne_eq, not_false_eq_true, not_true_eq_false,
            if_true, if_false, ite_true, ite_false, Option.bind_eq_bind, Option.pure_def,
            Option.some_bind, Option.bind_assoc, ite_add_ite] at hlen ⊢ <;>
          repeat
            first
            | rfl
            | (refine bind_getUint16_isSome (by omega) fun _ => ?_)
            | (refine bind_getInt16_isSome (by omega) fun _ => ?_)
            | (refine bind_getUint8_isSome (by omega) fun _ => ?_)
            | simp only [Option.bind_eq_bind, Option.pure_def, Option.some_bind,
                Option.bind_assoc, ite_add_ite]

/-- Counterexample for claim C3.  A power-measurement packet whose flags
announce crank-revolution data (bit 5) but whose crank bytes are missing
makes the decoder throw (`none` in this model: the `DataView` read at
offset 4 is out of range) — it does not decode cadence as absent.  The
claim's "never throw, missing fields decode to absent" fails. -/
theorem c3_counterexample :
    parseCyclingPowerMeasurement [0x20, 0x00, 0, 0] none none = none := by decide

/-- Claim C3 (amended: the decoders read the flag-gated fields at
cumulative offsets in fixed order, and any packet containing all the
bytes its flags imply decodes successfully — never throws; but a
truncated packet can make an out-of-range `DataView` read throw
(modelled as `none`) instead of decoding the missing fields as absent;
packets shorter than the 2-byte flags field always throw). -/
theorem c3_decoders_total :
    (∀ (bytes : List ℕ) (lr lt : Option ℕ) (flags : ℕ),
      getUint16LE bytes 0 = some flags → cpmImpliedLength flags ≤ bytes.length →
      (parseCyclingPowerMeasurement bytes lr lt).isSome) ∧
    (∀ (bytes : List ℕ) (flags : ℕ),
      getUint16LE bytes 0 = some flags → ftmsImpliedLength flags ≤ bytes.length →
      (parseFTMSIndoorBikeData bytes).isSome) ∧
    (∀ (bytes : List ℕ) (lr lt : Option ℕ), bytes.length < 2 →
      parseCyclingPowerMeasurement bytes lr lt = none ∧
        parseFTMSIndoorBikeData bytes = none) := by
  refine ⟨fun bytes lr lt flags hf hlen => cpm_isSome hf hlen,
    fun bytes flags hf hlen => ftms_isSome hf hlen, ?_⟩
  intro bytes lr lt hshort
  have hnone : getUint16LE bytes 0 = none := getUint16LE_none (by omega)
  constructor
  · rw [parseCyclingPowerMeasurement, hnone]
    rfl
  · rw [parseFTMSIndoorBikeData, hnone]
    rfl

/-- Witness for `c3_decoders_total` at concrete packets: a 9-byte
power-measurement packet with balance and crank fields, a 9-byte
indoor-bike-data packet with speed, cadence, power and heart rate, and
a 1-byte packet. -/
theorem c3_decoders_total_witness :
    (parseCyclingPowerMeasurement [33, 0, 10, 0, 1, 100, 0, 0, 2] none none).isSome ∧
    (parseFTMSIndoorBikeData [68, 2, 16, 39, 160, 0, 200, 0, 150]).isSome ∧
    parseCyclingPowerMeasurement [5] none none = none ∧
    parseFTMSIndoorBikeData [5] = none :=
  ⟨c3_decoders_total.1 [33, 0, 10, 0, 1, 100, 0, 0, 2] none none 33 (by decide) (by decide),
    c3_decoders_total.2.1 [68, 2, 16, 39, 160, 0, 200, 0, 150] 580 (by decide) (by decide),
    (c3_decoders_total.2.2 [5] none none (by decide)).1,
    (c3_decoders_total.2.2 [5] none none (by decide)).2⟩

/-- Claim C5, evaluated at the claim's own examples and at the failing
input of the code bug.  The first conjunct is the bug: with previous
crank sample `(revs 0, t 0)` and new sample `(revs 150, t 3000)` we have
`Δrev = 150 ≥ 100`, which the claim (and the source's own `// Sanity
check` comment) says must reject the update — but because `Δt = 3000 >
2048` the `else if` branch (whose comment reads "~2 seconds with no
update = stopped") fires and *sets cadence to 0*.  The remaining
conjuncts confirm the claim's stated behaviours: the `(100,0) → (110,512)`
sample implies 1200 RPM and yields no cadence update; Δt > 2 s with zero
Δrev yields cadence 0; and a clean 1-rev-per-second sample yields 60 RPM. -/
theorem c5_crank_cadence :
    crankCadence (some 0) (some 0) 150 3000 = some 0 ∧
    crankCadence (some 100) (some 0) 110 512 = none ∧
    crankCadence (some 0) (some 0) 0 3000 = some 0 ∧
    crankCadence (some 0) (some 0) 1 1024 = some 60 ∧
    parseCyclingPowerMeasurement [32, 0, 0, 0, 150, 0, 184, 11] (some 0) (some 0) =
      some ⟨0, some 0, some 150, some 3000⟩ := by
  refine ⟨by decide, ?_, ?_, ?_, by decide⟩ <;> norm_num [crankCadence, jsRound]

lemma sum_div_length_const {l : List ℚ} {c : ℚ} (hne : l ≠ []) (hc : ∀ x ∈ l, x = c) :
    l.sum / (l.length : ℚ) = c := by
  have hsum : l.sum = l.length • c := List.sum_eq_card_nsmul l c hc
  have hlen : (l.length : ℚ) ≠ 0 := by
    simpa using (List.length_pos.mpr hne).ne'
  rw [hsum, nsmul_eq_mul, mul_comm, mul_div_assoc, div_self hlen, mul_one]

lemma np_none_of_no_valid {data : List RecordedDataPoint}
    (h : validPowerSamples data = []) : calculateNormalizedPower data = none := by
  simp [calculateNormalizedPower, h]

lemma rollingAverageAt_mem_const {pv : List (ℚ × ℚ)} {c : ℚ} (hc : ∀ s ∈ pv, s.2 = c)
    {s : ℚ × ℚ} (hs : s ∈ pv) : rollingAverageAt pv s = some c := by
  rw [rollingAverageAt]
  have hmem : s ∈ pv.filter fun p => decide (s.1 - 30 < p.1) && decide (p.1 ≤ s.1) := by
    refine List.mem_filter.mpr ⟨hs, ?_⟩
    simp only [Bool.and_eq_true, decide_eq_true_eq]
    exact ⟨by linarith, le_refl _⟩
  have hne : (pv.filter fun p => decide (s.1 - 30 < p.1) && decide (p.1 ≤ s.1)) ≠ [] :=
    List.ne_nil_of_mem hmem
  rw [if_neg (by simp only [List.isEmpty_iff]; exact hne)]
  congr 1
  rw [show ((pv.filter fun p => decide (s.1 - 30 < p.1) && decide (p.1 ≤ s.1)).length)
      = ((pv.filter fun p => decide (s.1 - 30 < p.1) && decide (p.1 ≤ s.1)).map Prod.snd).length
    from (List.length_map _ _).symm]
  refine sum_div_length_const (by simpa using hne) ?_
  intro x hx
  obtain ⟨p, hp, rfl⟩ := List.mem_map.mp hx
  exact hc p (List.mem_of_mem_filter hp)

lemma root4RoundAux_eq {q : ℚ} {P : ℕ}
    (hiff : ∀ k : ℕ, 16 * q < (((2 * k + 1 : ℕ) : ℚ)) ^ 4 ↔ P ≤ k) :
    ∀ fuel start, start ≤ P → P < start + fuel → root4RoundAux fuel start q = P := by
  intro fuel
  induction fuel with
  | zero => intro start h1 h2; omega
  | succ fuel ih =>
    intro start h1 h2
    rw [root4RoundAux]
    by_cases hp : 16 * q < (((2 * start + 1 : ℕ) : ℚ)) ^ 4
    · rw [if_pos hp]
      have := (hiff start).mp hp
      omega
    · rw [if_neg hp]
      have : ¬ P ≤ start := fun hle => hp ((hiff start).mpr hle)
      exact ih (start + 1) (by omega) (by omega)

lemma pow4_lt_iff (P k : ℕ) :
    16 * ((P : ℚ)) ^ 4 < (((2 * k + 1 : ℕ) : ℚ)) ^ 4 ↔ P ≤ k := by
  have hcast : (16 * ((P : ℚ)) ^ 4 < (((2 * k + 1 : ℕ) : ℚ)) ^ 4) ↔
      (16 * P ^ 4 < (2 * k + 1) ^ 4) := by
    constructor
    · intro h; exact_mod_cast h
    · intro h; exact_mod_cast h
  rw [hcast]
  constructor
  · intro h
    by_contra hk
    push_neg at hk
    have h1 : 2 * k + 1 < 2 * P := by omega
    have h2 := Nat.pow_lt_pow_left h1 (show (4 : ℕ) ≠ 0 by norm_num)
    have h3 : (2 * P) ^ 4 = 16 * P ^ 4 := by ring
    omega
  · intro h
    have h1 : (2 * P) ^ 4 ≤ (2 * k) ^ 4 := Nat.pow_le_pow_left (by omega) 4
    have h2 := Nat.pow_lt_pow_left (show 2 * k < 2 * k + 1 by omega) (show (4 : ℕ) ≠ 0 by norm_num)
    have h3 : (2 * P) ^ 4 = 16 * P ^ 4 := by ring
    omega

lemma rat4RootRound_pow4 (P : ℕ) : rat4RootRound ((P : ℚ) ^ 4) = P := by
  rw [rat4RootRound]
  refine root4RoundAux_eq (fun k => pow4_lt_iff P k) _ 0 (Nat.zero_le P) ?_
  have hcast : ((P : ℚ)) ^ 4 = ((P ^ 4 : ℕ) : ℚ) := by push_cast; ring
  rw [hcast, Nat.ceil_natCast]
  have := Nat.le_self_pow (show 4 ≠ 0 by norm_num) P
  omega

lemma np_flat {data : List RecordedDataPoint} (P : ℕ)
    (hlen : 30 ≤ (validPowerSamples data).length)
    (hconst : ∀ s ∈ validPowerSamples data, s.2 = (P : ℚ)) :
    calculateNormalizedPower data = some (P : ℤ) := by
  have hne : validPowerSamples data ≠ [] := by
    intro h
    rw [h] at hlen
    simp at hlen
  simp only [calculateNormalizedPower]
  rw [if_neg (not_lt.mpr hlen)]
  set RA := (validPowerSamples data).filterMap
    (rollingAverageAt (validPowerSamples data)) with hRA
  have hRAmem : ∀ a ∈ RA, a = (P : ℚ) := by
    intro a ha
    obtain ⟨s, hs, hfs⟩ := List.mem_filterMap.mp ha
    rw [rollingAverageAt_mem_const hconst hs] at hfs
    exact (Option.some_inj.mp hfs).symm
  have hRAne : RA ≠ [] := by
    obtain ⟨s, hs⟩ := List.exists_mem_of_ne_nil _ hne
    exact List.ne_nil_of_mem
      (List.mem_filterMap.mpr ⟨s, hs, rollingAverageAt_mem_const hconst hs⟩)
  rw [if_neg (by simp only [List.isEmpty_iff]; exact hRAne)]
  have h4 : (RA.map fun a => a ^ 4).sum / (RA.length : ℚ) = ((P : ℚ)) ^ 4 := by
    rw [show RA.length = (RA.map fun a => a ^ 4).length from (List.length_map _ _).symm]
    refine sum_div_length_const (by simpa using hRAne) ?_
    intro x hx
    obtain ⟨a, ha, rfl⟩ := List.mem_map.mp hx
    rw [hRAmem a ha]
  rw [h4, rat4RootRound_pow4 P]


/-- Claim C8: with no valid (present, positive) power samples NP is
absent; with fewer than 30 valid samples NP is the (rounded) plain
arithmetic mean of the valid samples; with at least 30 valid samples all
equal to a constant `P` — in particular the flat 200 W, 40-sample
trace — the fourth-root-of-mean-fourth-powers of the 30-second trailing
rolling averages collapses to exactly `P`. -/
theorem c8_normalized_power :
    (∀ data : List RecordedDataPoint, validPowerSamples data = [] →
      calculateNormalizedPower data = none) ∧
    (∀ data : List RecordedDataPoint, validPowerSamples data ≠ [] →
      (validPowerSamples data).length < 30 →
      calculateNormalizedPower data =
        some (jsRound (((validPowerSamples data).map Prod.snd).sum /
          ((validPowerSamples data).length : ℚ)))) ∧
    (∀ (P : ℕ) (data : List RecordedDataPoint), 0 < P →
      30 ≤ (validPowerSamples data).length →
      (∀ s ∈ validPowerSamples data, s.2 = (P : ℚ)) →
      calculateNormalizedPower data = some (P : ℤ)) := by
  refine ⟨fun data h => np_none_of_no_valid h, ?_,
    fun P data _ h1 h2 => np_flat P h1 h2⟩
  intro data hne hlt
  have h0 : ¬((validPowerSamples data).length = 0) :=
    fun h => hne (List.length_eq_zero.mp h)
  simp [calculateNormalizedPower, hlt, h0]

/-- Witness for `c8_normalized_power`: the empty trace, a 5-sample
100 W trace (mean fallback), and the spec's flat 200 W 40-sample trace
(NP = 200 exactly). -/
theorem c8_normalized_power_witness :
    calculateNormalizedPower [] = none ∧
    calculateNormalizedPower (flatTrace 5 100) =
      some (jsRound (((validPowerSamples (flatTrace 5 100)).map Prod.snd).sum /
        ((validPowerSamples (flatTrace 5 100)).length : ℚ))) ∧
    calculateNormalizedPower (flatTrace 40 200) = some ((200 : ℕ) : ℤ) :=
  ⟨c8_normalized_power.1 [] rfl,
    c8_normalized_power.2.1 (flatTrace 5 100) (by decide) (by decide),
    c8_normalized_power.2.2 200 (flatTrace 40 200) (by norm_num) (by decide) (by decide)⟩

lemma peakPower_none {data : List RecordedDataPoint} (h : validPowerSamples data = [])
    (d : ℚ) : calculatePeakPower data d = none := by
  rw [calculatePeakPower, h]

lemma peakPowers_nil {data : List RecordedDataPoint} (h : validPowerSamples data = [])
    (dur : ℚ) : calculatePeakPowers data dur = [] := by
  rw [calculatePeakPowers]
  simp [peakPower_none h]

lemma validPowerSamples_eq_nil {data : List RecordedDataPoint}
    (hall : ∀ p ∈ data, p.actualPower = none) : validPowerSamples data = [] := by
  rw [validPowerSamples]
  exact List.filterMap_eq_nil_iff.mpr fun a ha => by rw [hall a ha]; rfl

/-- Claim C9: the summary of an empty trace is all-absent with a zero
-length peak list; an all-absent-power trace yields absent power
statistics, absent NP and TSS, and an empty peak-power list; and
`averageDataPoints` averages heart rate only over the non-absent
samples — absent when a bucket has none, the rounded mean of the present
ones otherwise. -/
theorem c9_summary_safety :
    (∀ ftp : ℚ, calculateWorkoutSummary [] ftp =
      ⟨0, none, none, none, none, none, none, none, []⟩) ∧
    (∀ (data : List RecordedDataPoint) (ftp : ℚ),
      (∀ p ∈ data, p.actualPower = none) →
      (calculateWorkoutSummary data ftp).avgPower = none ∧
      (calculateWorkoutSummary data ftp).maxPower = none ∧
      (calculateWorkoutSummary data ftp).normalizedPower = none ∧
      (calculateWorkoutSummary data ftp).actualTSS = none ∧
      (calculateWorkoutSummary data ftp).peakPowers = []) ∧
    (∀ pts : List RecordedDataPoint, pts ≠ [] →
      (∀ p ∈ pts, p.heartRate = none) →
      ∃ r, averageDataPoints pts = some r ∧ r.heartRate = none) ∧
    (∀ pts : List RecordedDataPoint, 2 ≤ pts.length →
      pts.filterMap (fun r => r.heartRate) ≠ [] →
      ∃ r, averageDataPoints pts = some r ∧
        r.heartRate = some ((jsRound ((pts.filterMap (fun r => r.heartRate)).sum /
          ((pts.filterMap (fun r => r.heartRate)).length : ℚ)) : ℤ) : ℚ)) := by
  refine ⟨fun ftp => rfl, ?_, ?_, ?_⟩
  · intro data ftp hall
    match data with
    | [] => exact ⟨rfl, rfl, rfl, rfl, rfl⟩
    | p :: rest =>
      have hvalid : validPowerSamples (p :: rest) = [] := validPowerSamples_eq_nil hall
      have hpow : (p :: rest).filterMap
          (fun r => r.actualPower.bind fun w => if 0 < w then some w else none) = [] :=
        List.filterMap_eq_nil_iff.mpr fun a ha => by rw [hall a ha]; rfl
      refine ⟨?_, ?_, ?_, ?_, ?_⟩ <;>
        simp [calculateWorkoutSummary, hpow, np_none_of_no_valid hvalid,
          peakPowers_nil hvalid]
  · intro pts hne hall
    match pts with
    | [p] => exact ⟨p, rfl, hall p (by simp)⟩
    | p :: q :: rest =>
      have hhr : (p :: q :: rest).filterMap (fun r => r.heartRate) = [] :=
        List.filterMap_eq_nil_iff.mpr fun a ha => hall a ha
      refine ⟨_, rfl, ?_⟩
      simp only [averageDataPoints, hhr]
      rfl
  · intro pts hlen hne
    match pts with
    | p :: q :: rest =>
      refine ⟨_, rfl, ?_⟩
      simp only [averageDataPoints]
      rw [if_pos (List.length_pos.mpr hne)]


/-- Witness for `c9_summary_safety`: the empty trace, a one-point trace
with absent power, an absent-heart-rate bucket, and a two-point bucket
with heart rates 100 and 101 (rounded mean 101). -/
theorem c9_summary_safety_witness :
    calculateWorkoutSummary [] 250 = ⟨0, none, none, none, none, none, none, none, []⟩ ∧
    ((calculateWorkoutSummary [⟨0, 0, 100, none, some 90, some 120, 0⟩] 250).avgPower = none ∧
      (calculateWorkoutSummary [⟨0, 0, 100, none, some 90, some 120, 0⟩] 250).maxPower = none ∧
      (calculateWorkoutSummary [⟨0, 0, 100, none, some 90, some 120, 0⟩] 250).normalizedPower
        = none ∧
      (calculateWorkoutSummary [⟨0, 0, 100, none, some 90, some 120, 0⟩] 250).actualTSS = none ∧
      (calculateWorkoutSummary [⟨0, 0, 100, none, some 90, some 120, 0⟩] 250).peakPowers = []) ∧
    (∃ r, averageDataPoints [⟨0, 0, 100, some 150, none, none, 0⟩] = some r ∧
      r.heartRate = none) ∧
    (∃ r, averageDataPoints
        [⟨0, 0, 100, some 150, none, some 100, 0⟩, ⟨1, 1, 100, some 150, none, some 101, 0⟩] =
          some r ∧
      r.heartRate = some ((jsRound ((([⟨0, 0, 100, some 150, none, some 100, 0⟩,
          ⟨(1 : ℚ), 1, 100, some 150, none, some 101, 0⟩] :
            List RecordedDataPoint).filterMap (fun r => r.heartRate)).sum /
        ((([⟨0, 0, 100, some 150, none, some 100, 0⟩,
          ⟨(1 : ℚ), 1, 100, some 150, none, some 101, 0⟩] :
            List RecordedDataPoint).filterMap (fun r => r.heartRate)).length : ℚ)) : ℤ) : ℚ)) :=
  ⟨c9_summary_safety.1 250,
    c9_summary_safety.2.1 [⟨0, 0, 100, none, some 90, some 120, 0⟩] 250 (by decide),
    c9_summary_safety.2.2.1 [⟨0, 0, 100, some 150, none, none, 0⟩] (by decide) (by decide),
    c9_summary_safety.2.2.2
      [⟨0, 0, 100, some 150, none, some 100, 0⟩, ⟨1, 1, 100, some 150, none, some 101, 0⟩]
      (by decide) (by decide)⟩

lemma autopauseEffect_not_playing {s : AutopauseState} {m : Option MetricsSnap} {now : ℚ}
    (h : s.status ≠ .playing) :
    autopauseEffect s m now = { s with zeroPowerStart := none } := by
  rw [autopauseEffect.eq_def, if_pos h]

lemma autopauseEffect_inert {s : AutopauseState} {m : Option MetricsSnap} {now : ℚ}
    (hp : m.bind MetricsSnap.power = none) (hc : m.bind MetricsSnap.cadence = none) :
    autopauseEffect s m now = { s with zeroPowerStart := none } := by
  by_cases h : s.status ≠ .playing
  · exact autopauseEffect_not_playing h
  · rw [autopauseEffect.eq_def, if_neg h]
    cases m with
    | none => rfl
    | some mm =>
      simp only [Option.some_bind] at hp hc
      dsimp only
      rw [if_pos ⟨hp, hc⟩]

lemma autopauseEffect_signals (s : AutopauseState) (m : Option MetricsSnap) (now : ℚ) :
    ((autopauseEffect s m now).autoPauseSignals = s.autoPauseSignals ∧
      (autopauseEffect s m now).status = s.status) ∨
    ((autopauseEffect s m now).autoPauseSignals = s.autoPauseSignals + 1 ∧
      (autopauseEffect s m now).status = .paused) := by
  by_cases h1 : s.status ≠ .playing
  · left
    rw [autopauseEffect_not_playing h1]
    exact ⟨rfl, rfl⟩
  · rw [autopauseEffect.eq_def, if_neg h1]
    cases m with
    | none => exact Or.inl ⟨rfl, rfl⟩
    | some mm =>
      dsimp only
      by_cases h2 : mm.power = none ∧ mm.cadence = none
      · rw [if_pos h2]
        exact Or.inl ⟨rfl, rfl⟩
      · rw [if_neg h2]
        by_cases h3 : (mm.power = some 0 ∨ mm.power = none) ∧
            (mm.cadence = some 0 ∨ mm.cadence = none)
        · rw [if_pos h3]
          cases hz : s.zeroPowerStart with
          | none => exact Or.inl ⟨rfl, rfl⟩
          | some t0 =>
            dsimp only
            by_cases h4 : AUTOPAUSE_DELAY_MS ≤ now - t0
            · rw [if_pos h4]
              exact Or.inr ⟨rfl, rfl⟩
            · rw [if_neg h4]
              exact Or.inl ⟨rfl, rfl⟩
        · rw [if_neg h3]
          exact Or.inl ⟨rfl, rfl⟩

lemma runAutopause_not_playing {s : AutopauseState}
    (events : List (ℚ × Option MetricsSnap)) (h : s.status ≠ .playing) :
    (runAutopause s events).autoPauseSignals = s.autoPauseSignals ∧
    (runAutopause s events).status = s.status := by
  induction events generalizing s with
  | nil => exact ⟨rfl, rfl⟩
  | cons e t ih =>
    have hstep : autopauseEffect s e.2 e.1 = { s with zeroPowerStart := none } :=
      autopauseEffect_not_playing h
    have := ih (s := { s with zeroPowerStart := none }) h
    simpa [runAutopause, hstep] using this

lemma runAutopause_le {s : AutopauseState} (events : List (ℚ × Option MetricsSnap))
    (h : s.status = .playing) :
    (runAutopause s events).autoPauseSignals ≤ s.autoPauseSignals + 1 := by
  induction events generalizing s with
  | nil => exact Nat.le_succ _
  | cons e t ih =>
    rcases autopauseEffect_signals s e.2 e.1 with ⟨hsig, hstat⟩ | ⟨hsig, hstat⟩
    · by_cases hplay : (autopauseEffect s e.2 e.1).status = .playing
      · have hrec := ih (s := autopauseEffect s e.2 e.1) hplay
        simp only [runAutopause, List.foldl_cons] at hrec ⊢
        omega
      · obtain ⟨h1, -⟩ := runAutopause_not_playing (s := autopauseEffect s e.2 e.1) t hplay
        simp only [runAutopause, List.foldl_cons] at h1 ⊢
        omega
    · have hnp : (autopauseEffect s e.2 e.1).status ≠ .playing := by
        rw [hstat]
        decide
      obtain ⟨h1, -⟩ := runAutopause_not_playing (s := autopauseEffect s e.2 e.1) t hnp
      simp only [runAutopause, List.foldl_cons] at h1 ⊢
      omega

lemma runAutopause_inert {s : AutopauseState} (events : List (ℚ × Option MetricsSnap))
    (h : ∀ e ∈ events, e.2.bind MetricsSnap.power = none ∧
      e.2.bind MetricsSnap.cadence = none) :
    (runAutopause s events).autoPauseSignals = s.autoPauseSignals ∧
    (runAutopause s events).status = s.status := by
  induction events generalizing s with
  | nil => exact ⟨rfl, rfl⟩
  | cons e t ih =>
    obtain ⟨hp, hc⟩ := h e (by simp)
    have hstep : autopauseEffect s e.2 e.1 = { s with zeroPowerStart := none } :=
      autopauseEffect_inert hp hc
    have hrec := ih (s := { s with zeroPowerStart := none })
      (fun x hx => h x (by simp [hx]))
    simp only [runAutopause, List.foldl_cons, hstep] at hrec ⊢
    exact hrec

/-- Claim C7: while playing, a run of the autopause effect raises the
autopause signal at most once (after firing, status is `paused` and the
effect never fires again until externally resumed); the effect is inert
when status is not `playing`; a session whose events never carry real
power or cadence data (synthetic-only) never autopauses; a non-idle
reading resets the idle timer to unset; the firing step itself sets
status to `paused`, stops both 1 Hz timers, raises the signal exactly
once, and requires idleness sustained for `AUTOPAUSE_DELAY_MS`; and the
concrete idle trace at times 0 ms and 5100 ms fires exactly once. -/
theorem c7_autopause :
    (∀ (s : AutopauseState) (events : List (ℚ × Option MetricsSnap)),
      s.status = .playing →
      (runAutopause s events).autoPauseSignals ≤ s.autoPauseSignals + 1) ∧
    (∀ (s : AutopauseState) (events : List (ℚ × Option MetricsSnap)),
      s.status ≠ .playing →
      (runAutopause s events).autoPauseSignals = s.autoPauseSignals ∧
      (runAutopause s events).status = s.status) ∧
    (∀ (s : AutopauseState) (events : List (ℚ × Option MetricsSnap)),
      (∀ e ∈ events, e.2.bind MetricsSnap.power = none ∧
        e.2.bind MetricsSnap.cadence = none) →
      (runAutopause s events).autoPauseSignals = s.autoPauseSignals ∧
      (runAutopause s events).status = s.status) ∧
    (∀ (s : AutopauseState) (m : MetricsSnap) (now : ℚ),
      s.status = .playing →
      ¬(m.power = none ∧ m.cadence = none) →
      ¬((m.power = some 0 ∨ m.power = none) ∧ (m.cadence = some 0 ∨ m.cadence = none)) →
      autopauseEffect s (some m) now = { s with zeroPowerStart := none }) ∧
    (∀ (s : AutopauseState) (m : MetricsSnap) (now t0 : ℚ),
      s.status = .playing →
      ¬(m.power = none ∧ m.cadence = none) →
      (m.power = some 0 ∨ m.power = none) → (m.cadence = some 0 ∨ m.cadence = none) →
      s.zeroPowerStart = some t0 → AUTOPAUSE_DELAY_MS ≤ now - t0 →
      autopauseEffect s (some m) now =
        { s with
          isAutoPaused := true
          timerActive := false
          recordTimerActive := false
          status := .paused
          autoPauseSignals := s.autoPauseSignals + 1
          zeroPowerStart := none }) ∧
    runAutopause ⟨.playing, none, false, true, true, 0⟩
        [(0, some ⟨some 0, some 0⟩), (5100, some ⟨some 0, some 0⟩)] =
      ⟨.paused, none, true, false, false, 1⟩ := by
  refine ⟨fun s events h => runAutopause_le events h,
    fun s events h => runAutopause_not_playing events h,
    fun s events h => runAutopause_inert events h, ?_, ?_, ?_⟩
  · intro s m now hplay hdata hidle
    rw [autopauseEffect.eq_def, if_neg (by simp [hplay])]
    dsimp only
    rw [if_neg hdata, if_neg hidle]
  · intro s m now t0 hplay hdata hp hc hz hdelay
    rw [autopauseEffect.eq_def, if_neg (by simp [hplay]), hz]
    dsimp only
    rw [if_neg hdata, if_pos ⟨hp, hc⟩, if_pos hdelay]
  · have s1 : autopauseEffect ⟨.playing, none, false, true, true, 0⟩
        (some ⟨some 0, some 0⟩) 0 = ⟨.playing, some 0, false, true, true, 0⟩ := by
      rw [autopauseEffect.eq_def]
      norm_num
      decide
    have s2 : autopauseEffect ⟨.playing, some 0, false, true, true, 0⟩
        (some ⟨some 0, some 0⟩) 5100 = ⟨.paused, none, true, false, false, 1⟩ := by
      rw [autopauseEffect.eq_def]
      norm_num [AUTOPAUSE_DELAY_MS]
      decide
    simp [runAutopause, s1, s2]


/-- Witness for `c7_autopause` at concrete states and traces. -/
theorem c7_autopause_witness :
    (runAutopause ⟨.playing, none, false, true, true, 0⟩
        [(0, some ⟨some 0, some 0⟩), (5100, some ⟨some 0, some 0⟩)]).autoPauseSignals ≤
      0 + 1 ∧
    ((runAutopause ⟨.paused, none, true, false, false, 1⟩
        [(6000, some ⟨some 0, some 0⟩)]).autoPauseSignals = 1 ∧
      (runAutopause ⟨.paused, none, true, false, false, 1⟩
        [(6000, some ⟨some 0, some 0⟩)]).status = .paused) ∧
    ((runAutopause ⟨.playing, none, false, true, true, 0⟩
        [(0, none), (9000, some ⟨none, none⟩)]).autoPauseSignals = 0 ∧
      (runAutopause ⟨.playing, none, false, true, true, 0⟩
        [(0, none), (9000, some ⟨none, none⟩)]).status = .playing) ∧
    autopauseEffect ⟨.playing, some 0, false, true, true, 0⟩
        (some ⟨some 150, some 90⟩) 4000 = ⟨.playing, none, false, true, true, 0⟩ ∧
    autopauseEffect ⟨.playing, some 0, false, true, true, 0⟩
        (some ⟨some 0, none⟩) 5000 = ⟨.paused, none, true, false, false, 1⟩ :=
  ⟨c7_autopause.1 ⟨.playing, none, false, true, true, 0⟩ _ rfl,
    c7_autopause.2.1 ⟨.paused, none, true, false, false, 1⟩ _ (by decide),
    c7_autopause.2.2.1 ⟨.playing, none, false, true, true, 0⟩
      [(0, none), (9000, some ⟨none, none⟩)] (by decide),
    (c7_autopause.2.2.2.1 ⟨.playing, some 0, false, true, true, 0⟩ ⟨some 150, some 90⟩
      4000 rfl (by decide) (by decide)).trans (by decide),
    (c7_autopause.2.2.2.2.1 ⟨.playing, some 0, false, true, true, 0⟩ ⟨some 0, none⟩
      5000 0 rfl (by decide) (Or.inl rfl) (Or.inr rfl) rfl
      (by norm_num [AUTOPAUSE_DELAY_MS])).trans (by decide)⟩

end Workoutcreator
